import Mathlib

/-!
Shallow embedding of the Planning Poker participant client
(`src/App.tsx`) and proofs about it.

Modelling conventions:
* Every number the client handles (cards, votes) is an integer from the
  estimate set `[1, 2, 3, 5, 8, 13, 21]`, where double-precision
  arithmetic is exact, so JavaScript numbers are modelled as `ℤ`.  The
  only non-integer value ever produced, the quotient
  `sum / votes.length` inside `calculateAverage`, is a JavaScript
  double-precision division: the model rounds the exact rational to
  the nearest IEEE-754 binary64 value (`roundToBinary64`, round to
  nearest, ties to even) and hands that double's exact value — a
  dyadic rational — to the `toFixed(1)` formatter, reproducing
  boundary cases such as `51 / 20` printing `"2.5"`.
* A `Player.vote` of type `number | '?' | null` becomes the inductive
  `Vote` with constructors `num`, `mask` (the `'?'` placeholder) and
  `null`.
* React `useState` state becomes the record `ClientState`; a `setX`
  call becomes a functional record update.  The socket reference
  `socketRef.current` (null until the socket.io script loads) is the
  boolean field `hasSocket`.
* `socket.emit` calls are collected in a returned `List ClientMsg`;
  incoming socket events are the inductive `ServerEvent`, applied by
  `applyServerEvent`.
-/

/-- The vote field of the `Player` interface of `App.tsx`:
`vote: number | '?' | null`. -/
inductive Vote where
  | num (v : ℤ)
  | mask
  | null
  deriving DecidableEq, Repr

/-- The `Player` interface of `App.tsx`. -/
structure Player where
  id : String
  name : String
  vote : Vote
  deriving DecidableEq, Repr

/-- The Fibonacci card list `const cards = [1, 2, 3, 5, 8, 13, 21]`. -/
def cards : List ℤ := [1, 2, 3, 5, 8, 13, 21]

/-- The client's `useState` variables, plus `hasSocket` for
`socketRef.current` being non-null. -/
structure ClientState where
  selectedCard : Option ℤ
  roomId : String
  playerName : String
  players : List Player
  isRevealed : Bool
  isConnected : Bool
  error : String
  hasSocket : Bool
  deriving DecidableEq, Repr

/-- Messages the client emits on the socket (`socket.emit` calls). -/
inductive ClientMsg where
  | join (roomId playerName : String)
  | vote (roomId : String) (vote : ℤ)
  | reveal (roomId : String)
  | reset (roomId : String)
  deriving DecidableEq, Repr

/-- Events the client receives on the socket (`socket.on` handlers). -/
inductive ServerEvent where
  | connectEv
  | disconnectEv
  | player_list_update (data : List Player)
  | player_voted (playerId : String)
  | votes_revealed (data : List Player)
  | game_reset (data : List Player)
  | errorEv (message : String)
  deriving DecidableEq, Repr

/-- `Number.prototype.toFixed(1)` applied to the exact rational
`num / den` (with `den ≠ 0`): per ECMA-262, pick the integer `n`
minimising `|n / 10 - x|`, ties to the larger `n` of the magnitude,
then print sign, integer part, `'.'`, and one digit.  For the
magnitude `a / den` this rounded numerator is
`⌊a / den * 10 + 1 / 2⌋ = (20 * a + den) / (2 * den)`. -/
def toFixed1 (num : ℤ) (den : ℕ) : String :=
  let sgn : String := if num < 0 then "-" else ""
  let a : ℕ := num.natAbs
  let n : ℕ := (20 * a + den) / (2 * den)
  sgn ++ toString (n / 10) ++ "." ++ toString (n % 10)

/-- `2 ^ t`, computed in pieces whose exponents stay below the
elaborator's exponentiation threshold, so that terms like `2 ^ 1074`
still evaluate during `decide`. -/
def pow2 (t : ℕ) : ℕ := (2 ^ (t / 8)) ^ 8 * 2 ^ (t % 8)

/-- Round the rational `num / den` (`den > 0`) to the nearest integer,
ties to the even neighbour — the rounding IEEE-754 binary64
arithmetic applies to its mantissa. -/
def roundHalfEven (num den : ℤ) : ℤ :=
  let q := num.fdiv den
  let r := num - q * den
  if 2 * r < den then q
  else if den < 2 * r then q + 1
  else if q % 2 = 0 then q else q + 1

/-- Whether `a / d ≥ 2 ^ k` (for `a, d > 0`), by cross-multiplying
with the appropriate power of two. -/
def geRatPow2 (a d : ℕ) (k : ℤ) : Bool :=
  if 0 ≤ k then d * pow2 k.toNat ≤ a
  else d ≤ a * pow2 (-k).toNat

/-- Binary search for the floor base-2 logarithm of `a / d`, offset by
1022: the largest `o ∈ [lo, hi] ⊆ [0, 2045]` with
`a / d ≥ 2 ^ (o - 1022)`, assuming that bound holds at `lo` already.
Structural fuel recursion (11 halvings of `[0, 2045]` suffice) keeps
the definition kernel-evaluable. -/
def findExpNat (a d : ℕ) : ℕ → ℕ → ℕ → ℕ
  | 0, lo, _ => lo
  | fuel + 1, lo, hi =>
      if hi ≤ lo then lo
      else
        let mid := (lo + hi + 1) / 2
        if geRatPow2 a d ((mid : ℤ) - 1022) then findExpNat a d fuel mid hi
        else findExpNat a d fuel lo (mid - 1)

/-- IEEE-754 binary64 rounding (round to nearest, ties to even) of the
exact rational `n / d` (`d ≠ 0`) — the value JavaScript's `/` on two
exact integers produces.  Returns the double's exact value as a dyadic
pair `(m, e)` meaning `m * 2 ^ e` (`|m| ∈ [2 ^ 52, 2 ^ 53)` when
normal, `e = -1074` with smaller `|m|` when subnormal), or `none` on
overflow to ±infinity. -/
def roundToBinary64 (n : ℤ) (d : ℕ) : Option (ℤ × ℤ) :=
  if n = 0 then some (0, 0)
  else
    let a := n.natAbs
    if geRatPow2 a d 1024 then none
    else if !geRatPow2 a d (-1022) then
      some (roundHalfEven (n * (pow2 1074 : ℕ)) (d : ℤ), -1074)
    else
      let e : ℤ := ((findExpNat a d 15 0 2045 : ℤ) - 1022) - 52
      let m :=
        if 0 ≤ e then roundHalfEven n ((d : ℤ) * (pow2 e.toNat : ℕ))
        else roundHalfEven (n * (pow2 (-e).toNat : ℕ)) (d : ℤ)
      if m.natAbs = 2 ^ 53 then
        if 971 < e + 1 then none else some (m.fdiv 2, e + 1)
      else some (m, e)

/-- `(n / d).toFixed(1)` as JavaScript computes it: first the binary64
division, then `toFixed(1)` on the double's exact (dyadic) value;
±infinity prints as in `Number.prototype.toString`. -/
def jsDivToFixed1 (n : ℤ) (d : ℕ) : String :=
  match roundToBinary64 n d with
  | some (m, e) =>
      if 0 ≤ e then toFixed1 (m * (pow2 e.toNat : ℕ)) 1
      else toFixed1 m (pow2 (-e).toNat)
  | none => if n < 0 then "-Infinity" else "Infinity"

/-- `players.map(p => p.vote).filter(v => typeof v === 'number')`:
the list of numeric votes, in order. -/
def numericVotes (players : List Player) : List ℤ :=
  (players.map Player.vote).filterMap fun v =>
    match v with
    | Vote.num q => some q
    | _ => none

/-- `calculateAverage` of `App.tsx`: `'0'` when no numeric votes,
otherwise `(sum / votes.length).toFixed(1)` — the `reduce` sum divided
by the vote count in double precision, then formatted. -/
def calculateAverage (players : List Player) : String :=
  let votes := numericVotes players
  if votes.length = 0 then "0"
  else
    let sum := votes.foldl (fun acc curr => acc + curr) 0
    jsDivToFixed1 sum votes.length

/-- The `socket.on` handlers of `App.tsx` (connect, disconnect and the
five server broadcasts), as one transition function on the client
state.  Broadcast handlers emit nothing. -/
def applyServerEvent (s : ClientState) : ServerEvent → ClientState
  | ServerEvent.connectEv => { s with isConnected := true }
  | ServerEvent.disconnectEv =>
      { s with isConnected := false, roomId := "", players := [] }
  | ServerEvent.player_list_update data => { s with players := data }
  | ServerEvent.player_voted playerId =>
      { s with players := s.players.map fun p =>
          if p.id = playerId then { p with vote := Vote.mask } else p }
  | ServerEvent.votes_revealed data =>
      { s with players := data, isRevealed := true }
  | ServerEvent.game_reset data =>
      { s with players := data, selectedCard := none, isRevealed := false }
  | ServerEvent.errorEv message => { s with error := message }

/-- `handleCardClick` of `App.tsx`: guard
`!isRevealed && isConnected && socketRef.current && roomId`
(a string is truthy iff non-empty), then set `selectedCard` and emit
one `vote` event. -/
def handleCardClick (s : ClientState) (card : ℤ) :
    ClientState × List ClientMsg :=
  if !s.isRevealed && s.isConnected && s.hasSocket && s.roomId != "" then
    ({ s with selectedCard := some card }, [ClientMsg.vote s.roomId card])
  else
    (s, [])

/-- `handleJoin` of `App.tsx`.  The two text inputs are read through
nullable refs (`roomIdInputRef.current?.value`), hence `Option String`
arguments; guard `socketRef.current && currentRoomId &&
currentPlayerName`, then set `roomId`/`playerName`, clear `players`
and `error`, and emit one `join` event; otherwise set the local
validation error message. -/
def handleJoin (s : ClientState) (roomInput nameInput : Option String) :
    ClientState × List ClientMsg :=
  match roomInput, nameInput with
  | some currentRoomId, some currentPlayerName =>
      if s.hasSocket && currentRoomId != "" && currentPlayerName != "" then
        ({ s with roomId := currentRoomId, playerName := currentPlayerName,
                  players := [], error := "" },
         [ClientMsg.join currentRoomId currentPlayerName])
      else
        ({ s with error := "Please enter a room ID and your name." }, [])
  | _, _ => ({ s with error := "Please enter a room ID and your name." }, [])

/-- Outcome of the `fetch('/create_room')` call in `handleCreateRoom`:
a fresh room id, or one of the two catch-branch failures. -/
inductive FetchOutcome where
  | ok (roomId : String)
  | failed (message : String)
  | failedUnknown
  deriving DecidableEq, Repr

/-- `handleCreateRoom` of `App.tsx`: empty/missing name is rejected
with a local error; a failed fetch sets an error message; a successful
fetch sets `roomId`/`playerName`, clears `players` and emits one
`join` event (when the socket exists). -/
def handleCreateRoom (s : ClientState) (nameInput : Option String)
    (outcome : FetchOutcome) : ClientState × List ClientMsg :=
  match nameInput with
  | none =>
      ({ s with error := "Please enter your name before creating a room." }, [])
  | some currentPlayerName =>
      if currentPlayerName = "" then
        ({ s with error := "Please enter your name before creating a room." },
         [])
      else
        match outcome with
        | FetchOutcome.ok rid =>
            if s.hasSocket then
              ({ s with roomId := rid, playerName := currentPlayerName,
                        players := [] },
               [ClientMsg.join rid currentPlayerName])
            else
              ({ s with roomId := rid, playerName := currentPlayerName,
                        players := [] }, [])
        | FetchOutcome.failed msg =>
            ({ s with error := "Failed to connect to the backend: " ++ msg ++
                ". Please ensure the Python server is running and accessible." },
             [])
        | FetchOutcome.failedUnknown =>
            ({ s with
                error := "An unknown error occurred while creating a room." },
             [])

/-- The `disabled={isRevealed || !isConnected}` attribute of the
Reveal Votes button (and of every card button). -/
def revealButtonDisabled (s : ClientState) : Bool :=
  s.isRevealed || !s.isConnected

/-- Clicking the Reveal Votes button: the click is delivered only when
the button is not disabled, then
`socketRef.current?.emit('reveal', { roomId })` with no state change. -/
def handleRevealClick (s : ClientState) : ClientState × List ClientMsg :=
  if !(revealButtonDisabled s) && s.hasSocket then
    (s, [ClientMsg.reveal s.roomId])
  else
    (s, [])

/-- Clicking the Reset button: the button carries no `disabled`
attribute, so the click always runs
`socketRef.current?.emit('reset', { roomId })` with no state change. -/
def handleResetClick (s : ClientState) : ClientState × List ClientMsg :=
  if s.hasSocket then
    (s, [ClientMsg.reset s.roomId])
  else
    (s, [])

/-- The user interactions the rendered page offers.  A card click is
identified by its index into `cards` (the card buttons are rendered by
`cards.map`), and the card buttons carry
`disabled={isRevealed || !isConnected}`. -/
inductive ClientAction where
  | clickCard (i : ℕ)
  | clickJoin (roomInput nameInput : Option String)
  | clickCreateRoom (nameInput : Option String) (outcome : FetchOutcome)
  | clickReveal
  | clickReset
  deriving DecidableEq, Repr

/-- One user interaction applied to the client state: the join / create
form is rendered only while `roomId` is empty, the game buttons only
while it is non-empty. -/
def step (s : ClientState) : ClientAction → ClientState × List ClientMsg
  | ClientAction.clickCard i =>
      match cards[i]? with
      | some card =>
          if revealButtonDisabled s then (s, []) else handleCardClick s card
      | none => (s, [])
  | ClientAction.clickJoin r n =>
      if s.roomId = "" then handleJoin s r n else (s, [])
  | ClientAction.clickCreateRoom n outcome =>
      if s.roomId = "" then handleCreateRoom s n outcome else (s, [])
  | ClientAction.clickReveal =>
      if s.roomId = "" then (s, []) else handleRevealClick s
  | ClientAction.clickReset =>
      if s.roomId = "" then (s, []) else handleResetClick s

/-- Concrete player list for C1: numeric votes 3, 5, 8 with one masked
and one absent vote interleaved. -/
def c1Players : List Player :=
  [⟨"p1", "Alice", Vote.num 3⟩, ⟨"p2", "Bob", Vote.mask⟩,
   ⟨"p3", "Carol", Vote.num 5⟩, ⟨"p4", "Dan", Vote.null⟩,
   ⟨"p5", "Eve", Vote.num 8⟩]

/-- Twenty players with estimate-set votes (nine 2s, eleven 3s): sum
51, exact mean 2.55, a tie case where the binary64 quotient
`51 / 20 ≈ 2.5499999999999998` falls below the exact mean. -/
def c1TiePlayers : List Player :=
  (List.range 9).map (fun i => ⟨"a" ++ toString i, "P", Vote.num 2⟩) ++
    (List.range 11).map (fun i => ⟨"b" ++ toString i, "Q", Vote.num 3⟩)

theorem foldl_add_eq_sum (l : List ℤ) (a : ℤ) :
    l.foldl (fun acc curr => acc + curr) a = a + l.sum := by
  induction l generalizing a with
  | nil => simp
  | cons x xs ih => simp [List.foldl_cons, ih, List.sum_cons]; ring

/-- C1 is false on the code in its "mean rounded to one fractional
digit" part: on twenty estimate-set votes summing to 51 (exact mean
2.55) `calculateAverage` prints `"2.5"`, because the double quotient
`51 / 20` rounds below the exact mean before `toFixed(1)`, while the
exact mean rounded to one fractional digit (`toFixed1` on the exact
rational `51 / 20`) is `"2.6"`. -/
theorem C1_exact_rounding_counterexample :
    calculateAverage c1TiePlayers = "2.5"
    ∧ toFixed1 (numericVotes c1TiePlayers).sum
        (numericVotes c1TiePlayers).length = "2.6"
    ∧ calculateAverage c1TiePlayers ≠
        toFixed1 (numericVotes c1TiePlayers).sum
          (numericVotes c1TiePlayers).length :=
  ⟨by decide, by decide, by decide⟩

/-- C1 amended: `calculateAverage` is a pure function of exactly the
numeric votes of the players projection (masked `'?'` and `null`
votes excluded); it returns `"0"` when there are no numeric votes,
otherwise the double-precision quotient of their sum by their count
formatted by `toFixed(1)` — which coincides with the exact mean
rounded to one fractional digit except where the binary64 rounding of
the quotient crosses a decimal rounding boundary, as at mean 2.55 —
and on players whose numeric votes are `[3, 5, 8]` it returns
`"5.3"`. -/
theorem C1_calculateAverage_amended :
    (∀ ps ps' : List Player, numericVotes ps = numericVotes ps' →
        calculateAverage ps = calculateAverage ps')
    ∧ (∀ ps : List Player, numericVotes ps = [] → calculateAverage ps = "0")
    ∧ (∀ ps : List Player, numericVotes ps ≠ [] →
        calculateAverage ps =
          jsDivToFixed1 (numericVotes ps).sum (numericVotes ps).length)
    ∧ calculateAverage c1Players = "5.3" := by
  refine ⟨?_, ?_, ?_, ?_⟩
  · intro ps ps' h
    simp only [calculateAverage, h]
  · intro ps h
    simp [calculateAverage, h]
  · intro ps h
    have hlen : (numericVotes ps).length ≠ 0 := by
      simpa [List.length_eq_zero] using h
    simp [calculateAverage, hlen, foldl_add_eq_sum]
  · decide

/-- Closed instance of C1 (amended): the empty projection yields
`"0"`, and a projection with a single numeric vote 5 yields the
formatted double quotient. -/
theorem C1_calculateAverage_amended_witness :
    calculateAverage [] = "0"
    ∧ calculateAverage [⟨"p1", "A", Vote.num 5⟩] =
        jsDivToFixed1 (numericVotes [⟨"p1", "A", Vote.num 5⟩]).sum
          (numericVotes [⟨"p1", "A", Vote.num 5⟩]).length :=
  ⟨C1_calculateAverage_amended.2.1 [] rfl,
   C1_calculateAverage_amended.2.2.1 [⟨"p1", "A", Vote.num 5⟩] (by decide)⟩

/-- C2 formalised as stated: every received event either leaves the
players projection untouched or replaces it with a value that does not
depend on the previous local state. -/
def playersNeverMergedClaim : Prop :=
  ∀ (e : ServerEvent) (s t : ClientState),
    (applyServerEvent s e).players = s.players ∨
      (applyServerEvent s e).players = (applyServerEvent t e).players

/-- C2 is false on the code: the `player_voted` handler computes the
new players list from the previous local one
(`prevPlayers.map(...)`).  Concretely, `player_voted "p1"` turns a
previous list `[{p1, Alice, 5}]` into `[{p1, Alice, '?'}]` — neither
the unchanged previous list nor the result it produces from the
previous list `[]`. -/
theorem C2_wholesale_replace_counterexample : ¬ playersNeverMergedClaim := by
  intro h
  rcases h (ServerEvent.player_voted "p1")
      ⟨none, "R1", "Alice", [⟨"p1", "Alice", Vote.num 5⟩], false, true, "", true⟩
      ⟨none, "R1", "Alice", [], false, true, "", true⟩ with h1 | h1 <;>
    exact absurd h1 (by decide)

/-- C2 amended: the three broadcasts that carry a players list
(`player_list_update`, `votes_revealed`, `game_reset`) replace the
players projection wholesale with the payload, independently of the
previous local list; the `player_voted` broadcast, whose payload
carries only a player id and no list, instead updates the previous
local list in place by masking the named player's vote. -/
theorem C2_wholesale_replace_amended (s : ClientState) (data : List Player)
    (pid : String) :
    (applyServerEvent s (ServerEvent.player_list_update data)).players = data
    ∧ (applyServerEvent s (ServerEvent.votes_revealed data)).players = data
    ∧ (applyServerEvent s (ServerEvent.game_reset data)).players = data
    ∧ (applyServerEvent s (ServerEvent.player_voted pid)).players =
        s.players.map
          (fun p => if p.id = pid then { p with vote := Vote.mask } else p) :=
  ⟨rfl, rfl, rfl, rfl⟩

/-- C5: the `socket.on('disconnect')` handler sets `isConnected` to
false, clears `roomId` to the empty string and clears the `players`
projection to the empty list. -/
theorem C5_disconnect_clears (s : ClientState) :
    (applyServerEvent s ServerEvent.disconnectEv).isConnected = false
    ∧ (applyServerEvent s ServerEvent.disconnectEv).roomId = ""
    ∧ (applyServerEvent s ServerEvent.disconnectEv).players = [] :=
  ⟨rfl, rfl, rfl⟩

/-- C6: the `game_reset` handler replaces `players` with the payload,
clears the optimistic `selectedCard` and sets `isRevealed := false`;
the `votes_revealed` handler replaces `players` with the payload and
sets `isRevealed := true`. -/
theorem C6_reset_and_reveal_handlers (s : ClientState) (data : List Player) :
    applyServerEvent s (ServerEvent.game_reset data) =
      { s with players := data, selectedCard := none, isRevealed := false }
    ∧ applyServerEvent s (ServerEvent.votes_revealed data) =
      { s with players := data, isRevealed := true } :=
  ⟨rfl, rfl⟩

/-- C7: for every payload id (the client's own id included), the
`player_voted` handler leaves `selectedCard` and `isRevealed`
unchanged, and position by position it masks the matching player's
vote with `'?'` while leaving every other player's entry unchanged. -/
theorem C7_player_voted_frame (s : ClientState) (pid : String) :
    (applyServerEvent s (ServerEvent.player_voted pid)).selectedCard =
        s.selectedCard
    ∧ (applyServerEvent s (ServerEvent.player_voted pid)).isRevealed =
        s.isRevealed
    ∧ ∀ i : ℕ,
        (applyServerEvent s (ServerEvent.player_voted pid)).players[i]? =
          (s.players[i]?).map
            (fun p => if p.id = pid then { p with vote := Vote.mask } else p) := by
  refine ⟨rfl, rfl, fun i => ?_⟩
  simp [applyServerEvent, List.getElem?_map]

/-- C10: the `socket.on('disconnect')` handler modifies only
`isConnected`, `roomId` and `players`: it leaves `isRevealed`,
`selectedCard`, `playerName`, `error` and `hasSocket` unchanged; and a
subsequent `handleJoin` (either branch) still leaves `isRevealed` and
`selectedCard` at their pre-disconnect values, until a
`votes_revealed` or `game_reset` broadcast overwrites them. -/
theorem C10_disconnect_frame (s : ClientState) :
    (applyServerEvent s ServerEvent.disconnectEv).isRevealed = s.isRevealed
    ∧ (applyServerEvent s ServerEvent.disconnectEv).selectedCard =
        s.selectedCard
    ∧ (applyServerEvent s ServerEvent.disconnectEv).playerName = s.playerName
    ∧ (applyServerEvent s ServerEvent.disconnectEv).error = s.error
    ∧ (applyServerEvent s ServerEvent.disconnectEv).hasSocket = s.hasSocket
    ∧ ∀ roomInput nameInput : Option String,
        ((handleJoin (applyServerEvent s ServerEvent.disconnectEv)
            roomInput nameInput).1).isRevealed = s.isRevealed
        ∧ ((handleJoin (applyServerEvent s ServerEvent.disconnectEv)
            roomInput nameInput).1).selectedCard = s.selectedCard := by
  refine ⟨rfl, rfl, rfl, rfl, rfl, fun ri ni => ?_⟩
  cases ri <;> cases ni <;> simp only [handleJoin] <;>
    first
      | exact ⟨rfl, rfl⟩
      | (split <;> exact ⟨rfl, rfl⟩)

/-- C3: `handleCardClick` is a no-op — state unchanged and nothing
emitted — unless `isConnected`, `roomId` non-empty (joined) and
`!isRevealed`; when those hold it sets the optimistic `selectedCard`
to the chosen value and emits exactly one `vote` event carrying that
value and the room id.  The socket reference is non-null whenever
`isConnected` (the connect handler only exists on a created socket),
which is the `hsock` hypothesis. -/
theorem C3_handleCardClick_spec (s : ClientState) (card : ℤ)
    (hsock : s.isConnected = true → s.hasSocket = true) :
    ((s.isConnected = false ∨ s.roomId = "" ∨ s.isRevealed = true) →
        handleCardClick s card = (s, []))
    ∧ (s.isConnected = true → s.roomId ≠ "" → s.isRevealed = false →
        handleCardClick s card =
          ({ s with selectedCard := some card },
           [ClientMsg.vote s.roomId card])) := by
  constructor
  · rintro (h | h | h) <;> simp [handleCardClick, h]
  · intro hc hr hrev
    simp [handleCardClick, hc, hrev, hsock hc, hr]

/-- Closed instance of C3: in a connected, joined, hidden state a card
click selects the card and emits one vote; in a revealed state it is a
no-op. -/
theorem C3_handleCardClick_spec_witness :
    handleCardClick ⟨none, "R1", "Alice", [], false, true, "", true⟩ 5 =
      (⟨some 5, "R1", "Alice", [], false, true, "", true⟩,
       [ClientMsg.vote "R1" 5])
    ∧ handleCardClick ⟨some 3, "R1", "Alice", [], true, true, "", true⟩ 5 =
      (⟨some 3, "R1", "Alice", [], true, true, "", true⟩, []) :=
  ⟨(C3_handleCardClick_spec ⟨none, "R1", "Alice", [], false, true, "", true⟩ 5
      (fun _ => rfl)).2 rfl (by decide) rfl,
   (C3_handleCardClick_spec ⟨some 3, "R1", "Alice", [], true, true, "", true⟩ 5
      (fun _ => rfl)).1 (Or.inr (Or.inr rfl))⟩

/-- C4: `handleJoin` with an empty room id or an empty player name is
rejected locally — nothing is emitted, only the local validation error
message is set; with both non-empty (and the socket present, `hsock`)
it emits one `join` intent and optimistically sets `roomId` and
`playerName` (also clearing `players` and `error`) before any server
acknowledgment. -/
theorem C4_handleJoin_spec (s : ClientState) (r n : String)
    (hsock : s.hasSocket = true) :
    ((r = "" ∨ n = "") →
        handleJoin s (some r) (some n) =
          ({ s with error := "Please enter a room ID and your name." }, []))
    ∧ (r ≠ "" → n ≠ "" →
        handleJoin s (some r) (some n) =
          ({ s with roomId := r, playerName := n, players := [], error := "" },
           [ClientMsg.join r n])) := by
  constructor
  · rintro (h | h) <;> simp [handleJoin, h]
  · intro hr hn
    simp [handleJoin, hsock, hr, hn]

/-- Closed instance of C4: an empty room id is rejected locally with
the validation message and no emission; non-empty fields emit the join
intent and set the optimistic fields. -/
theorem C4_handleJoin_spec_witness :
    handleJoin ⟨none, "", "", [], false, true, "", true⟩ (some "") (some "Alice") =
      (⟨none, "", "", [], false, true,
        "Please enter a room ID and your name.", true⟩, [])
    ∧ handleJoin ⟨none, "", "", [], false, true, "", true⟩
        (some "R1") (some "Alice") =
      (⟨none, "R1", "Alice", [], false, true, "", true⟩,
       [ClientMsg.join "R1" "Alice"]) :=
  ⟨(C4_handleJoin_spec ⟨none, "", "", [], false, true, "", true⟩ "" "Alice"
      rfl).1 (Or.inl rfl),
   (C4_handleJoin_spec ⟨none, "", "", [], false, true, "", true⟩ "R1" "Alice"
      rfl).2 (by decide) (by decide)⟩

/-- C8 formalised as stated: whenever the client is joined (and the
out-of-scope socket exists), clicking Reveal Votes respectively Reset
forwards the corresponding intent for the current room with no further
local precondition and no state change. -/
def thinForwardersClaim : Prop :=
  ∀ s : ClientState, s.hasSocket = true → s.roomId ≠ "" →
    step s ClientAction.clickReveal = (s, [ClientMsg.reveal s.roomId])
    ∧ step s ClientAction.clickReset = (s, [ClientMsg.reset s.roomId])

/-- C8 is false on the code for Reveal: the Reveal Votes button carries
`disabled={isRevealed || !isConnected}`, so in a joined, connected but
already-revealed state clicking it sends nothing. -/
theorem C8_thin_forwarders_counterexample : ¬ thinForwardersClaim := by
  intro h
  have h1 :=
    (h ⟨none, "R1", "Alice", [], true, true, "", true⟩ rfl (by decide)).1
  exact absurd h1 (by decide)

/-- C8 amended: Reset is a thin forwarder — whenever joined (and the
socket exists) clicking it sends the reset intent for the current
room, unconditionally on `isRevealed` and `isConnected`, with no state
change; Reveal forwards the reveal intent likewise but only when
additionally `isRevealed = false` and `isConnected = true`, because
its button is disabled when `isRevealed || !isConnected`; when
revealed or disconnected the Reveal click does nothing. -/
theorem C8_thin_forwarders_amended (s : ClientState)
    (hsock : s.hasSocket = true) (hroom : s.roomId ≠ "") :
    step s ClientAction.clickReset = (s, [ClientMsg.reset s.roomId])
    ∧ (s.isRevealed = false → s.isConnected = true →
        step s ClientAction.clickReveal = (s, [ClientMsg.reveal s.roomId]))
    ∧ ((s.isRevealed = true ∨ s.isConnected = false) →
        step s ClientAction.clickReveal = (s, [])) := by
  refine ⟨?_, ?_, ?_⟩
  · simp [step, hroom, handleResetClick, hsock]
  · intro hrev hconn
    simp [step, hroom, handleRevealClick, revealButtonDisabled, hrev, hconn,
      hsock]
  · rintro (h | h) <;>
      simp [step, hroom, handleRevealClick, revealButtonDisabled, h]

/-- Closed instance of C8 (amended): in a joined, connected, hidden
state Reset and Reveal both forward their intents; in the same state
with `isRevealed = true` the Reveal click sends nothing. -/
theorem C8_thin_forwarders_amended_witness :
    step ⟨none, "R1", "Alice", [], false, true, "", true⟩
        ClientAction.clickReset =
      (⟨none, "R1", "Alice", [], false, true, "", true⟩,
       [ClientMsg.reset "R1"])
    ∧ step ⟨none, "R1", "Alice", [], false, true, "", true⟩
        ClientAction.clickReveal =
      (⟨none, "R1", "Alice", [], false, true, "", true⟩,
       [ClientMsg.reveal "R1"])
    ∧ step ⟨none, "R1", "Alice", [], true, true, "", true⟩
        ClientAction.clickReveal =
      (⟨none, "R1", "Alice", [], true, true, "", true⟩, []) :=
  ⟨(C8_thin_forwarders_amended ⟨none, "R1", "Alice", [], false, true, "", true⟩
      rfl (by decide)).1,
   (C8_thin_forwarders_amended ⟨none, "R1", "Alice", [], false, true, "", true⟩
      rfl (by decide)).2.1 rfl rfl,
   (C8_thin_forwarders_amended ⟨none, "R1", "Alice", [], true, true, "", true⟩
      rfl (by decide)).2.2 (Or.inl rfl)⟩

theorem handleCardClick_vote_val (s : ClientState) (card : ℤ) (r : String)
    (v : ℤ) (h : ClientMsg.vote r v ∈ (handleCardClick s card).2) :
    v = card := by
  unfold handleCardClick at h
  split at h <;> simp at h
  exact h.2

theorem handleJoin_no_vote (s : ClientState) (ri ni : Option String)
    (r : String) (v : ℤ) : ClientMsg.vote r v ∉ (handleJoin s ri ni).2 := by
  intro h
  rcases ri with _ | ri' <;> rcases ni with _ | ni' <;>
      simp only [handleJoin] at h
  · simp at h
  · simp at h
  · simp at h
  · split at h <;> simp at h

theorem handleCreateRoom_no_vote (s : ClientState) (n : Option String)
    (outcome : FetchOutcome) (r : String) (v : ℤ) :
    ClientMsg.vote r v ∉ (handleCreateRoom s n outcome).2 := by
  intro h
  rcases n with _ | n'
  · simp [handleCreateRoom] at h
  · rcases outcome with rid | msg | _ <;> simp only [handleCreateRoom] at h
    · split at h
      · simp at h
      · split at h <;> simp at h
    · split at h <;> simp at h
    · split at h <;> simp at h

theorem handleRevealClick_no_vote (s : ClientState) (r : String) (v : ℤ) :
    ClientMsg.vote r v ∉ (handleRevealClick s).2 := by
  intro h
  unfold handleRevealClick at h
  split at h <;> simp at h

theorem handleResetClick_no_vote (s : ClientState) (r : String) (v : ℤ) :
    ClientMsg.vote r v ∉ (handleResetClick s).2 := by
  intro h
  unfold handleResetClick at h
  split at h <;> simp at h

/-- C9: every `vote` event any user interaction emits carries a value
from the fixed estimate set `cards = [1, 2, 3, 5, 8, 13, 21]` — the
only emitting path is a card-button click, whose value is the clicked
element of `cards`. -/
theorem C9_vote_values_from_cards (s : ClientState) (a : ClientAction)
    (r : String) (v : ℤ) (h : ClientMsg.vote r v ∈ (step s a).2) :
    v ∈ cards := by
  cases a with
  | clickCard i =>
      simp only [step] at h
      split at h
      case _ card heq =>
        split at h
        · simp at h
        · rw [handleCardClick_vote_val s card r v h]
          exact List.getElem?_mem heq
      case _ => simp at h
  | clickJoin ri ni =>
      simp only [step] at h
      split at h
      · exact absurd h (handleJoin_no_vote s ri ni r v)
      · simp at h
  | clickCreateRoom n outcome =>
      simp only [step] at h
      split at h
      · exact absurd h (handleCreateRoom_no_vote s n outcome r v)
      · simp at h
  | clickReveal =>
      simp only [step] at h
      split at h
      · simp at h
      · exact absurd h (handleRevealClick_no_vote s r v)
  | clickReset =>
      simp only [step] at h
      split at h
      · simp at h
      · exact absurd h (handleResetClick_no_vote s r v)

/-- Closed instance of C9: clicking the fourth card in a joined,
connected, hidden state emits the vote value 5, which is in the
estimate set. -/
theorem C9_vote_values_from_cards_witness : (5 : ℤ) ∈ cards :=
  C9_vote_values_from_cards ⟨none, "R1", "Alice", [], false, true, "", true⟩
    (ClientAction.clickCard 3) "R1" 5 (by decide)
